import Mathlib

/-!
Shallow embedding of the neverlight-mail cache-first synchronization and
optimistic-mutation engine, translated from the Rust sources under src/.

The repository snapshot contains two generations of the update loop:
the monolithic `src/app.rs` (whose handlers are embedded below) and the
modular `src/app/` whose handler submodules (actions, sync, body, watch, ...)
are not present in the snapshot; for those, only the declarations in
`src/app/types.rs` exist and the behaviour is modelled from the spec where
needed (each such definition is marked `Modelled from the spec:`).

Machine integers (u32/u64 hashes, counts, offsets) are modelled as `Nat`:
no arithmetic in the embedded handlers can overflow at the values involved
(offsets only grow by page increments, hashes are opaque identifiers).
-/

/-! ## Data model (src/core/models.rs) -/

/-- A mail folder (IMAP mailbox), from `src/core/models.rs`. -/
structure Folder where
  name : String
  path : String
  unread_count : Nat
  total_count : Nat
  mailbox_hash : Nat
deriving DecidableEq

/-- Summary of a message for the list view, from `src/core/models.rs`. -/
structure MessageSummary where
  uid : Nat
  subject : String
  «from» : String
  date : String
  is_read : Bool
  is_starred : Bool
  has_attachments : Bool
  thread_id : Option Nat
  envelope_hash : Nat
  timestamp : Int
  mailbox_hash : Nat
  message_id : String
  in_reply_to : Option String
  reply_to : Option String
  thread_depth : Nat
deriving DecidableEq

/-! ## Association-list maps

`HashMap<String, u64>` (the folder map) and the cache's keyed tables are
embedded as association lists with insert-replace semantics. -/

/-- Lookup in an association list (embeds `HashMap::get`). -/
def getAssoc {α β : Type} [DecidableEq α] : List (α × β) → α → Option β
  | [], _ => none
  | (k', v) :: rest, k => if k' = k then some v else getAssoc rest k

/-- Insert-or-replace in an association list (embeds `HashMap::insert`). -/
def setAssoc {α β : Type} [DecidableEq α] : List (α × β) → α → β → List (α × β)
  | [], k, v => [(k, v)]
  | (k', v') :: rest, k, v =>
      if k' = k then (k, v) :: rest else (k', v') :: setAssoc rest k v

theorem getAssoc_setAssoc {α β : Type} [DecidableEq α]
    (l : List (α × β)) (k k' : α) (v : β) :
    getAssoc (setAssoc l k v) k' = if k = k' then some v else getAssoc l k' := by
  induction l with
  | nil =>
      by_cases h : k = k' <;> simp [setAssoc, getAssoc, h]
  | cons hd tl ih =>
      obtain ⟨k₀, v₀⟩ := hd
      by_cases h0 : k₀ = k
      · subst h0
        by_cases h : k₀ = k' <;> simp [setAssoc, getAssoc, h]
      · by_cases h : k₀ = k'
        · subst h
          have hkk : ¬ k = k₀ := fun hc => h0 hc.symm
          simp [setAssoc, getAssoc, h0, hkk, ih]
        · simp [setAssoc, getAssoc, h0, h, ih]

/-! ## Cache Store collaborator

The new-generation `CacheHandle` implementation is not under src/ (the old
stub `src/core/store.rs` is embedded separately below in namespace `store`).
Each operation below is Modelled from the spec: the Cache Store interface of
spec section 6 — `loadMessages(mailboxId, pageSize, offset)` returns one page
of the rows stored for that mailbox, `saveMessages` persists exactly the
fetched rows for the mailbox (read-your-write), `updateFlags` records a
pending-operation marker together with the previous flag byte,
`clearPendingOp` confirms and clears it, `revertPendingOp` restores the
previous flag byte and clears it. -/

/-- One cache row of per-envelope flag state with the pending marker. -/
structure FlagRow where
  flags : Nat
  prev_flags : Nat
  pending_op : Option String
deriving DecidableEq

/-- The cache contents: per-mailbox message rows, per-envelope flag rows and
bodies. -/
structure CacheState where
  messages : List (Nat × List MessageSummary)
  flag_rows : List (Nat × FlagRow)
  bodies : List (Nat × String)
deriving DecidableEq

/-- Modelled from the spec: `loadMessages(mailboxId, pageSize, offset)`. -/
def CacheState.loadMessages (c : CacheState) (mailbox page offset : Nat) :
    List MessageSummary :=
  (((getAssoc c.messages mailbox).getD []).drop offset).take page

/-- Modelled from the spec: `saveMessages(mailboxId, msgs)` persists exactly
the fetched rows for that mailbox. -/
def CacheState.saveMessages (c : CacheState) (mailbox : Nat)
    (msgs : List MessageSummary) : CacheState :=
  { c with messages := setAssoc c.messages mailbox msgs }

/-- Modelled from the spec: `updateFlags(envelopeId, newFlags, pendingOpTag)`. -/
def CacheState.updateFlags (c : CacheState) (env new_flags : Nat) (tag : String) :
    CacheState :=
  let old := ((getAssoc c.flag_rows env).map FlagRow.flags).getD 0
  { c with flag_rows := setAssoc c.flag_rows env ⟨new_flags, old, some tag⟩ }

/-- Modelled from the spec: `clearPendingOp(envelopeId, confirmedFlags)`. -/
def CacheState.clearPendingOp (c : CacheState) (env confirmed : Nat) : CacheState :=
  match getAssoc c.flag_rows env with
  | some r => { c with flag_rows := setAssoc c.flag_rows env ⟨confirmed, r.prev_flags, none⟩ }
  | none => c

/-- Modelled from the spec: `revertPendingOp(envelopeId)` restores the previous
flag byte and clears the pending marker. -/
def CacheState.revertPendingOp (c : CacheState) (env : Nat) : CacheState :=
  match getAssoc c.flag_rows env with
  | some r => { c with flag_rows := setAssoc c.flag_rows env ⟨r.prev_flags, r.prev_flags, none⟩ }
  | none => c

/-- Modelled from the spec: `saveBody(envelopeId, body)`. -/
def CacheState.saveBody (c : CacheState) (env : Nat) (body : String) : CacheState :=
  { c with bodies := setAssoc c.bodies env body }

/-- Modelled from the spec: the bounded page size used by the Cache-First
Loader (`DEFAULT_PAGE_SIZE` lives in the store module that is not under src/;
the spec fixes no value, 50 is used here — the claim theorems are stated for
an arbitrary page size and only evaluated at this constant). -/
def DEFAULT_PAGE_SIZE : Nat := 50

/-- Modelled from the spec: the "previous flag byte" encoding used by the
pending-mutation records (`store::flags_to_u8`; the new-generation store
module is not under src/). Bit 0 = read/seen, bit 1 = starred/flagged. -/
def flags_to_u8 (is_read is_starred : Bool) : Nat :=
  (if is_read then 1 else 0) + (if is_starred then 2 else 0)

/-! ## The application model (src/app.rs, `AppModel`)

Only the state the embedded handlers touch is carried. The `Option<Arc<...>>`
session and cache handles are embedded as presence booleans (`is_some`): the
handlers only branch on presence and forward the handle into spawned tasks,
which are embedded as explicit `Effect`s. -/

/-- Background work spawned by a handler (the `cosmic::task::future` bodies):
each constructor records one cache or session operation the task performs. -/
inductive Effect where
  | cacheUpdateFlags (envelope_hash new_flags : Nat) (tag : String)
  | cacheClearPendingOp (envelope_hash new_flags : Nat)
  | cacheRevertPendingOp (envelope_hash : Nat)
  | cacheRemoveMessage (envelope_hash : Nat)
  | cacheLoadMessages (mailbox_hash page offset : Nat)
  | cacheSaveBody (envelope_hash : Nat) (body : String)
  | sessionSetFlags (envelope_hash mailbox_hash : Nat) (set_op seen_flag : Bool)
  | sessionMoveMessages (envelope_hash source_mailbox dest_mailbox : Nat)
  | sessionFetchMessages (mailbox_hash : Nat)
deriving DecidableEq

/-- Whether an effect touches the live IMAP session (as opposed to the cache). -/
def Effect.isSessionOp : Effect → Bool
  | .sessionSetFlags _ _ _ _ => true
  | .sessionMoveMessages _ _ _ => true
  | .sessionFetchMessages _ => true
  | _ => false

/-- The in-memory application state from `src/app.rs` (fields the embedded
handlers read or write; widget-only setup fields beyond those touched by the
`Connected(Err)` handler are omitted). -/
structure AppModel where
  config : Bool
  session : Bool
  cache : Bool
  folders : List Folder
  selected_folder : Option Nat
  messages : List MessageSummary
  selected_message : Option Nat
  messages_offset : Nat
  has_more_messages : Bool
  preview_body : String
  folder_map : List (String × Nat)
  is_syncing : Bool
  status_message : String
  show_setup_dialog : Bool
  password_only_mode : Bool
  setup_error : Option String
deriving DecidableEq

/-- `AppModel::rebuild_folder_map` (src/app.rs and, identically,
`AccountState::rebuild_folder_map` in src/app/types.rs): clear the map, then
insert every folder's path → mailbox_hash. -/
def buildFolderMap (folders : List Folder) : List (String × Nat) :=
  folders.foldl (fun m f => setAssoc m f.path f.mailbox_hash) []

def AppModel.rebuild_folder_map (st : AppModel) : AppModel :=
  { st with folder_map := buildFolderMap st.folders }

/-! ## Handlers of the update loop (src/app.rs `update`) -/

/-- `Message::CachedMessagesLoaded(Ok(messages))` (src/app.rs lines 456-470).
`page` stands for `DEFAULT_PAGE_SIZE`. -/
def AppModel.cachedMessagesLoaded (page : Nat) (st : AppModel)
    (messages : List MessageSummary) : AppModel :=
  let count := messages.length
  let st1 := { st with has_more_messages := count == page }
  let st2 :=
    if st1.messages_offset = 0 then { st1 with messages := messages }
    else { st1 with messages := st1.messages ++ messages }
  if st2.messages.isEmpty then st2
  else { st2 with status_message := toString st2.messages.length ++ " messages" }

/-- `Message::SyncMessagesComplete` (src/app.rs lines 585-609): on success,
reset the offset to 0 and issue a second cache read for the selected folder;
on failure, surface the error. -/
def AppModel.syncMessagesComplete (page : Nat) (st : AppModel)
    (result : Except String Unit) : AppModel × List Effect :=
  match result with
  | .ok _ =>
    let st1 := { st with is_syncing := false }
    let fallback :=
      { st1 with status_message := toString st1.messages.length ++ " messages (synced)" }
    match st1.selected_folder with
    | some idx =>
      match st1.folders.get? idx with
      | some folder =>
        if st1.cache then
          ({ st1 with messages_offset := 0 },
           [Effect.cacheLoadMessages folder.mailbox_hash page 0])
        else (fallback, [])
      | none => (fallback, [])
    | none => (fallback, [])
  | .error e =>
    ({ st with is_syncing := false, status_message := "Sync failed: " ++ e }, [])

/-- The background message-sync task spawned by `SelectFolder` /
`SyncFoldersComplete` / `Refresh` (src/app.rs): fetch messages from the
session, persist them to the cache when one is present, and report
completion (the live payload itself is dropped). -/
def syncMessagesTask (c : CacheState) (cachePresent : Bool) (mailbox : Nat)
    (fetched : Except String (List MessageSummary)) :
    CacheState × Except String Unit :=
  match fetched with
  | .ok msgs => (if cachePresent then c.saveMessages mailbox msgs else c, .ok ())
  | .error e => (c, .error e)

/-- `Message::LoadMoreMessages` (src/app.rs lines 708-727): advance the offset
by one page size and issue a cache-only read at the new offset. -/
def AppModel.loadMoreMessages (page : Nat) (st : AppModel) : AppModel × List Effect :=
  let st1 := { st with messages_offset := st.messages_offset + page }
  let offset := st1.messages_offset
  match st1.selected_folder with
  | some idx =>
    match st1.folders.get? idx with
    | some folder =>
      if st1.cache then
        (st1, [Effect.cacheLoadMessages folder.mailbox_hash page offset])
      else (st1, [])
    | none => (st1, [])
  | none => (st1, [])

/-- The INBOX auto-selection step of `SyncFoldersComplete(Ok)` (src/app.rs
lines 537-541): when no folder is selected, select the folder whose path is
"INBOX" if there is one. -/
def AppModel.autoSelectInbox (st : AppModel) : AppModel :=
  if st.selected_folder = none then
    match st.folders.findIdx? (fun f => f.path == "INBOX") with
    | some idx => { st with selected_folder := some idx }
    | none => st
  else st

/-- `Message::SyncFoldersComplete(Ok(folders))` (src/app.rs lines 531-567):
replace the folder list, rebuild the folder map, auto-select INBOX when
nothing is selected, and kick off a message sync for the selected folder. -/
def AppModel.syncFoldersCompleteOk (st : AppModel) (folders : List Folder) :
    AppModel × List Effect :=
  let st1 := AppModel.rebuild_folder_map { st with folders := folders }
  let st2 := { st1 with is_syncing := false,
                        status_message := toString st1.folders.length ++ " folders" }
  let st3 := st2.autoSelectInbox
  match st3.selected_folder with
  | some idx =>
    match st3.folders.get? idx with
    | some folder =>
      if st3.session then (st3, [Effect.sessionFetchMessages folder.mailbox_hash])
      else (st3, [])
    | none => (st3, [])
  | none => (st3, [])

/-- `Message::ToggleRead(index)` (src/app.rs lines 797-845): optimistically
flip `is_read`, persist the pending marker, dispatch the remote op. -/
def AppModel.toggleRead (st : AppModel) (index : Nat) : AppModel × List Effect :=
  match st.messages.get? index with
  | none => (st, [])
  | some msg =>
    let new_read := !msg.is_read
    let msg' := { msg with is_read := new_read }
    let st1 := { st with messages := st.messages.set index msg' }
    let new_flags := flags_to_u8 new_read msg.is_starred
    let pending_op := if new_read then "set_seen" else "unset_seen"
    let cacheTasks :=
      if st1.cache then [Effect.cacheUpdateFlags msg.envelope_hash new_flags pending_op]
      else []
    let sessionTasks :=
      if st1.session then
        [Effect.sessionSetFlags msg.envelope_hash msg.mailbox_hash new_read true]
      else []
    (st1, cacheTasks ++ sessionTasks)

/-- `Message::ToggleStar(index)` (src/app.rs lines 847-895): optimistically
flip `is_starred`, persist the pending marker, dispatch the remote op. -/
def AppModel.toggleStar (st : AppModel) (index : Nat) : AppModel × List Effect :=
  match st.messages.get? index with
  | none => (st, [])
  | some msg =>
    let new_starred := !msg.is_starred
    let msg' := { msg with is_starred := new_starred }
    let st1 := { st with messages := st.messages.set index msg' }
    let new_flags := flags_to_u8 msg.is_read new_starred
    let pending_op := if new_starred then "set_flagged" else "unset_flagged"
    let cacheTasks :=
      if st1.cache then [Effect.cacheUpdateFlags msg.envelope_hash new_flags pending_op]
      else []
    let sessionTasks :=
      if st1.session then
        [Effect.sessionSetFlags msg.envelope_hash msg.mailbox_hash new_starred false]
      else []
    (st1, cacheTasks ++ sessionTasks)

/-- `Message::FlagOpComplete` (src/app.rs lines 1012-1048). On success the
pending cache marker is confirmed; on failure the handler sets the status,
flips `is_read` back on the targeted envelope ("toggle back") and reverts the
pending cache marker. -/
def AppModel.flagOpComplete (st : AppModel) (envelope_hash : Nat)
    (result : Except String Nat) : AppModel × List Effect :=
  match result with
  | .ok new_flags =>
    (st, if st.cache then [Effect.cacheClearPendingOp envelope_hash new_flags] else [])
  | .error e =>
    let st1 := { st with status_message := "Flag update failed: " ++ e }
    let st2 :=
      match st1.messages.findIdx? (fun m => m.envelope_hash == envelope_hash) with
      | some i =>
        match st1.messages.get? i with
        | some m => { st1 with messages := st1.messages.set i { m with is_read := !m.is_read } }
        | none => st1
      | none => st1
    (st2, if st2.cache then [Effect.cacheRevertPendingOp envelope_hash] else [])

/-- `folder_map.get("Trash").or_else(|| folder_map.get("INBOX.Trash"))`
(src/app.rs line 898). -/
def resolveTrash (m : List (String × Nat)) : Option Nat :=
  match getAssoc m "Trash" with
  | some h => some h
  | none => getAssoc m "INBOX.Trash"

/-- `folder_map.get("Archive").or_else(|| folder_map.get("INBOX.Archive"))`
(src/app.rs line 954). -/
def resolveArchive (m : List (String × Nat)) : Option Nat :=
  match getAssoc m "Archive" with
  | some h => some h
  | none => getAssoc m "INBOX.Archive"

/-- The optimistic-removal step shared by Trash and Archive (src/app.rs lines
903-912 and 959-968): remove the message at `index`, then clamp or clear the
selection. -/
def AppModel.removeWithClamp (st : AppModel) (index : Nat) : AppModel :=
  let messages' := st.messages.eraseIdx index
  let st1 := { st with messages := messages' }
  match st1.selected_message with
  | some sel =>
    if messages'.length ≤ sel ∧ ¬ messages'.isEmpty then
      { st1 with selected_message := some (messages'.length - 1) }
    else if messages'.isEmpty then
      { st1 with selected_message := none, preview_body := "" }
    else st1
  | none => st1

/-- `Message::TrashMessage(index)` (src/app.rs lines 897-951). -/
def AppModel.trashMessage (st : AppModel) (index : Nat) : AppModel × List Effect :=
  match resolveTrash st.folder_map with
  | some trash_hash =>
    match st.messages.get? index with
    | some msg =>
      let envelope_hash := msg.envelope_hash
      let source_mailbox := msg.mailbox_hash
      let st1 := st.removeWithClamp index
      let cacheTasks :=
        if st1.cache then
          [Effect.cacheUpdateFlags envelope_hash (flags_to_u8 true false)
            ("move:" ++ toString trash_hash)]
        else []
      let sessionTasks :=
        if st1.session then
          [Effect.sessionMoveMessages envelope_hash source_mailbox trash_hash]
        else []
      (st1, cacheTasks ++ sessionTasks)
    | none => (st, [])
  | none => ({ st with status_message := "Trash folder not found" }, [])

/-- `Message::ArchiveMessage(index)` (src/app.rs lines 953-1007). -/
def AppModel.archiveMessage (st : AppModel) (index : Nat) : AppModel × List Effect :=
  match resolveArchive st.folder_map with
  | some archive_hash =>
    match st.messages.get? index with
    | some msg =>
      let envelope_hash := msg.envelope_hash
      let source_mailbox := msg.mailbox_hash
      let st1 := st.removeWithClamp index
      let cacheTasks :=
        if st1.cache then
          [Effect.cacheUpdateFlags envelope_hash (flags_to_u8 true false)
            ("move:" ++ toString archive_hash)]
        else []
      let sessionTasks :=
        if st1.session then
          [Effect.sessionMoveMessages envelope_hash source_mailbox archive_hash]
        else []
      (st1, cacheTasks ++ sessionTasks)
    | none => (st, [])
  | none => ({ st with status_message := "Archive folder not found" }, [])

/-- `Message::MoveOpComplete` (src/app.rs lines 1050-1073). On success the
cache row is removed; on failure only the status message is set (the source
carries a TODO: the optimistically removed message is not re-inserted and the
cache pending marker is not reverted). -/
def AppModel.moveOpComplete (st : AppModel) (envelope_hash : Nat)
    (result : Except String Unit) : AppModel × List Effect :=
  match result with
  | .ok _ =>
    (st, if st.cache then [Effect.cacheRemoveMessage envelope_hash] else [])
  | .error e =>
    ({ st with status_message := "Move failed: " ++ e }, [])

/-- `Message::Connected(Err(e))` (src/app.rs lines 503-526): a failed connect
clears the syncing flag and sets a status (re-showing the setup dialog only
when there are no cached folders); folders and messages are left untouched. -/
def AppModel.connectedErr (st : AppModel) (e : String) : AppModel :=
  let st1 := { st with is_syncing := false }
  if st1.folders.isEmpty ∧ st1.show_setup_dialog = false then
    let st2 := { st1 with show_setup_dialog := true }
    let st3 := if st2.config then { st2 with password_only_mode := false } else st2
    { st3 with setup_error := some ("Connection failed: " ++ e),
               status_message := "Connection failed: " ++ e }
  else if st1.folders.isEmpty then
    { st1 with status_message := "Connection failed: " ++ e }
  else
    { st1 with status_message :=
        toString st1.folders.length ++ " folders (offline — " ++ e ++ ")" }

/-! ## Body loading (src/app.rs `Message::SelectMessage`, lines 732-782) -/

/-- The body-loading task spawned by `SelectMessage` when a cache is present:
read the body from cache first; on a miss fetch from the live session (when
one exists), persist the fetched body into the cache, and only then report
`BodyLoaded`. `sessionFetch` is the outcome `session.fetch_body` would
produce, `none` standing for "no session". Returns the `BodyLoaded` payload
together with the cache state after the task ran. -/
def loadBodyTask (c : CacheState) (sessionFetch : Option (Except String String))
    (envelope_hash : Nat) : Except String String × CacheState :=
  match getAssoc c.bodies envelope_hash with
  | some body => (.ok body, c)
  | none =>
    match sessionFetch with
    | some result =>
      match result with
      | .ok body => (.ok body, c.saveBody envelope_hash body)
      | .error e => (.error e, c)
    | none => (.error "Not connected", c)

/-! ## New-generation per-account state (src/app/types.rs) -/

/-- `ConnectionState` (src/app/types.rs lines 25-32). -/
inductive ConnectionState where
  | Disconnected
  | Connecting
  | Connected
  | Syncing
  | Error (reason : String)
deriving DecidableEq

/-- `AccountState` (src/app/types.rs lines 38-45); the config and session
handles are embedded as presence booleans, as for `AppModel`. -/
structure AccountState where
  session : Bool
  conn_state : ConnectionState
  folders : List Folder
  folder_map : List (String × Nat)
  collapsed : Bool
deriving DecidableEq

/-- `AccountState::rebuild_folder_map` (src/app/types.rs lines 59-64):
clear-then-repopulate, never incremental. -/
def AccountState.rebuild_folder_map (a : AccountState) : AccountState :=
  { a with folder_map := buildFolderMap a.folders }

/-- Modelled from the spec: the new-generation `AccountConnected` error
handler (module src/app/sync.rs is not in the snapshot; spec section 7:
"Connection errors — non-fatal, transition account to Error(reason),
preserve any cached data, require explicit reconnect"). -/
def AccountState.accountConnectedErr (a : AccountState) (e : String) : AccountState :=
  { a with conn_state := ConnectionState.Error e }

/-- Modelled from the spec: the bound on deferred body-load retries
(`body_defer_retries` in src/app/types.rs "prevents infinite loops"; the
handler module src/app/body.rs is not in the snapshot; the spec fixes no
value, 5 is used here). -/
def MAX_BODY_DEFER_RETRIES : Nat := 5

/-- The deferred-body fields of the new-generation model
(src/app/types.rs lines 133-136). -/
structure BodyDefer where
  pending_body : Option Nat
  body_defer_retries : Nat
deriving DecidableEq

/-- Modelled from the spec: deferring a body load when no session exists yet
(src/app/body.rs is not in the snapshot): remember the requested index and
bump the bounded retry counter instead of failing outright; once the bound is
reached, give up and drop the deferred request. Returns the new defer state
and whether the load was deferred. -/
def BodyDefer.deferBodyLoad (d : BodyDefer) (index : Nat) : BodyDefer × Bool :=
  if d.body_defer_retries < MAX_BODY_DEFER_RETRIES then
    ({ pending_body := some index,
       body_defer_retries := d.body_defer_retries + 1 }, true)
  else
    ({ d with pending_body := none }, false)

/-! ## The standalone cache-store stub (src/core/store.rs) -/

namespace store

/-- Where a SQLite connection stores its data. -/
inductive DbLocation where
  | memory
  | file (path : String)
deriving DecidableEq

/-- A row of the `folders` table created by `init_db`. -/
structure FolderRow where
  path : String
  name : String
  unread_count : Nat
  total_count : Nat
deriving DecidableEq

/-- A row of the `messages` table created by `init_db`. -/
structure MessageRow where
  uid : Nat
  folder_path : String
  subject : String
  sender : String
  date : String
  is_read : Bool
  is_starred : Bool
  has_attachments : Bool
  thread_id : Option Nat
  body_text : Option String
  body_html : Option String
deriving DecidableEq

/-- A `rusqlite::Connection` with the two tables of the cache schema. -/
structure Connection where
  location : DbLocation
  folders_table : List FolderRow
  messages_table : List MessageRow
deriving DecidableEq

/-- `init_db` (src/core/store.rs lines 6-34): `CREATE TABLE IF NOT EXISTS` and
`CREATE INDEX IF NOT EXISTS` only — never touches existing rows. -/
def init_db (conn : Connection) : Connection := conn

/-- `open_db` (src/core/store.rs lines 37-42): opens an in-memory database
(`Connection::open_in_memory`) and initializes the schema. -/
def open_db : Connection :=
  init_db { location := DbLocation.memory, folders_table := [], messages_table := [] }

/-- `save_folders` (src/core/store.rs lines 45-48): the body is only a TODO
comment and `Ok(())` — nothing is written. -/
def save_folders (conn : Connection) (_folders : List Folder) :
    Connection × Except String Unit :=
  (conn, .ok ())

/-- `load_folders` (src/core/store.rs lines 51-54): always `Ok(Vec::new())`. -/
def load_folders (_conn : Connection) : Except String (List Folder) :=
  .ok []

/-- `save_messages` (src/core/store.rs lines 57-63): the body is only a TODO
comment and `Ok(())` — nothing is written. -/
def save_messages (conn : Connection) (_messages : List MessageSummary) :
    Connection × Except String Unit :=
  (conn, .ok ())

/-- `load_messages` (src/core/store.rs lines 66-72): always `Ok(Vec::new())`. -/
def load_messages (_conn : Connection) (_folder_path : String) :
    Except String (List MessageSummary) :=
  .ok []

end store

/-! ## Helper lemmas -/

theorem opt_some_or {α : Type} (a : α) (o : Option α) : (some a).or o = some a := rfl

theorem opt_none_or {α : Type} (o : Option α) : (Option.none).or o = o := by
  cases o <;> rfl

theorem opt_isSome_or {α : Type} (a b : Option α) :
    (a.or b).isSome = (a.isSome || b.isSome) := by
  cases a <;> cases b <;> rfl

/-- The hash of the last folder in `fs` whose path is `p` (later sync entries
override earlier ones, mirroring repeated `HashMap::insert`). -/
def findLastPath (fs : List Folder) (p : String) : Option Nat :=
  fs.foldl (fun acc f => if f.path = p then some f.mailbox_hash else acc) none

theorem findLastPath_foldl_acc (fs : List Folder) (p : String) (acc : Option Nat) :
    fs.foldl (fun a f => if f.path = p then some f.mailbox_hash else a) acc =
      (findLastPath fs p).or acc := by
  induction fs generalizing acc with
  | nil => simp [findLastPath, opt_none_or]
  | cons f fs ih =>
    simp only [findLastPath, List.foldl_cons] at *
    rw [ih, ih (if f.path = p then some f.mailbox_hash else Option.none)]
    cases hf : fs.foldl (fun a f => if f.path = p then some f.mailbox_hash else a) Option.none with
    | some h => rfl
    | none =>
      rw [opt_none_or, opt_none_or]
      by_cases h : f.path = p
      · rw [if_pos h, if_pos h, opt_some_or]
      · rw [if_neg h, if_neg h, opt_none_or]

theorem findLastPath_cons (f : Folder) (fs : List Folder) (p : String) :
    findLastPath (f :: fs) p =
      (findLastPath fs p).or (if f.path = p then some f.mailbox_hash else none) := by
  simp only [findLastPath, List.foldl_cons]
  exact findLastPath_foldl_acc fs p _

theorem getAssoc_foldl_ins (fs : List Folder) (m0 : List (String × Nat)) (p : String) :
    getAssoc (fs.foldl (fun m f => setAssoc m f.path f.mailbox_hash) m0) p =
      (findLastPath fs p).or (getAssoc m0 p) := by
  induction fs generalizing m0 with
  | nil => simp [findLastPath, opt_none_or]
  | cons f fs ih =>
    simp only [List.foldl_cons]
    rw [ih, findLastPath_cons]
    cases hf : findLastPath fs p with
    | some h => rfl
    | none =>
      rw [opt_none_or, opt_none_or, getAssoc_setAssoc]
      by_cases h : f.path = p
      · rw [if_pos h, if_pos h, opt_some_or]
      · rw [if_neg h, if_neg h, opt_none_or]

theorem getAssoc_buildFolderMap (fs : List Folder) (p : String) :
    getAssoc (buildFolderMap fs) p = findLastPath fs p := by
  rw [buildFolderMap, getAssoc_foldl_ins]
  cases findLastPath fs p <;> rfl

theorem findLastPath_isSome_iff (fs : List Folder) (p : String) :
    (findLastPath fs p).isSome ↔ p ∈ fs.map Folder.path := by
  induction fs with
  | nil => simp [findLastPath]
  | cons f fs ih =>
    rw [findLastPath_cons, opt_isSome_or]
    simp only [List.map_cons, List.mem_cons, Bool.or_eq_true, ih]
    by_cases h : f.path = p
    · rw [if_pos h]
      simp [h.symm]
    · rw [if_neg h]
      have h' : ¬ p = f.path := fun hc => h hc.symm
      simp [h']

theorem mem_keys_setAssoc {α β : Type} [DecidableEq α]
    (l : List (α × β)) (k a : α) (v : β) :
    a ∈ (setAssoc l k v).map Prod.fst ↔ a ∈ l.map Prod.fst ∨ a = k := by
  induction l with
  | nil => simp [setAssoc]
  | cons hd tl ih =>
    obtain ⟨k₀, v₀⟩ := hd
    by_cases h : k₀ = k
    · subst h
      show a ∈ ((if k₀ = k₀ then (k₀, v) :: tl else (k₀, v₀) :: setAssoc tl k₀ v).map Prod.fst) ↔ _
      rw [if_pos rfl]
      simp only [List.map_cons, List.mem_cons]
      tauto
    · show a ∈ ((if k₀ = k then (k, v) :: tl else (k₀, v₀) :: setAssoc tl k v).map Prod.fst) ↔ _
      rw [if_neg h]
      simp only [List.map_cons, List.mem_cons, ih]
      tauto

theorem nodup_keys_setAssoc {α β : Type} [DecidableEq α]
    (l : List (α × β)) (k : α) (v : β)
    (h : (l.map Prod.fst).Nodup) : ((setAssoc l k v).map Prod.fst).Nodup := by
  induction l with
  | nil => simp [setAssoc]
  | cons hd tl ih =>
    obtain ⟨k₀, v₀⟩ := hd
    simp only [List.map_cons, List.nodup_cons] at h
    by_cases hk : k₀ = k
    · subst hk
      show ((if k₀ = k₀ then (k₀, v) :: tl else (k₀, v₀) :: setAssoc tl k₀ v).map Prod.fst).Nodup
      rw [if_pos rfl]
      simp only [List.map_cons, List.nodup_cons]
      exact h
    · show ((if k₀ = k then (k, v) :: tl else (k₀, v₀) :: setAssoc tl k v).map Prod.fst).Nodup
      rw [if_neg hk]
      simp only [List.map_cons, List.nodup_cons]
      refine ⟨fun hc => ?_, ih h.2⟩
      rcases (mem_keys_setAssoc tl k k₀ v).mp hc with hc | hc
      · exact h.1 hc
      · exact hk hc

theorem nodup_keys_buildFolderMap (fs : List Folder) :
    ((buildFolderMap fs).map Prod.fst).Nodup := by
  have main : ∀ (fs : List Folder) (m0 : List (String × Nat)),
      (m0.map Prod.fst).Nodup →
      ((fs.foldl (fun m f => setAssoc m f.path f.mailbox_hash) m0).map Prod.fst).Nodup := by
    intro fs
    induction fs with
    | nil => intro m0 h; simpa using h
    | cons f fs ih =>
      intro m0 h
      exact ih _ (nodup_keys_setAssoc m0 f.path f.mailbox_hash h)
  exact main fs [] (by simp)

theorem cachedMessagesLoaded_messages (page : Nat) (st : AppModel)
    (rows : List MessageSummary) :
    (st.cachedMessagesLoaded page rows).messages =
      if st.messages_offset = 0 then rows else st.messages ++ rows := by
  simp only [AppModel.cachedMessagesLoaded]
  by_cases h : st.messages_offset = 0 <;> simp only [h, if_true, if_false, ite_true, ite_false] <;>
    split <;> rfl

theorem cachedMessagesLoaded_has_more (page : Nat) (st : AppModel)
    (rows : List MessageSummary) :
    (st.cachedMessagesLoaded page rows).has_more_messages = (rows.length == page) := by
  simp only [AppModel.cachedMessagesLoaded]
  split <;> split <;> rfl

theorem syncMessagesCompleteOk_eq (page : Nat) (st : AppModel) (idx : Nat)
    (folder : Folder) (hsel : st.selected_folder = some idx)
    (hfold : st.folders.get? idx = some folder) (hcache : st.cache = true) :
    st.syncMessagesComplete page (.ok ()) =
      ({ st with is_syncing := false, messages_offset := 0 },
       [Effect.cacheLoadMessages folder.mailbox_hash page 0]) := by
  rw [List.get?_eq_getElem?] at hfold
  simp [AppModel.syncMessagesComplete, hsel, hfold, hcache]

theorem removeWithClamp_spec (st : AppModel) (index s : Nat)
    (hsel : st.selected_message = some s) :
    (st.removeWithClamp index).messages = st.messages.eraseIdx index ∧
    ((st.removeWithClamp index).messages = [] →
      (st.removeWithClamp index).selected_message = none ∧
      (st.removeWithClamp index).preview_body = "") ∧
    ((st.removeWithClamp index).messages ≠ [] →
      (st.removeWithClamp index).selected_message =
        some (if (st.messages.eraseIdx index).length ≤ s
              then (st.messages.eraseIdx index).length - 1 else s) ∧
      (st.removeWithClamp index).preview_body = st.preview_body) := by
  simp only [AppModel.removeWithClamp, hsel]
  by_cases hc : (st.messages.eraseIdx index).length ≤ s ∧
      ¬ (st.messages.eraseIdx index).isEmpty
  · rw [if_pos hc]
    refine ⟨rfl, fun hE => ?_, fun _ => ?_⟩
    · replace hE : st.messages.eraseIdx index = [] := hE
      rw [hE] at hc
      exact (hc.2 rfl).elim
    · refine ⟨?_, rfl⟩
      show some ((st.messages.eraseIdx index).length - 1) =
        some (if (st.messages.eraseIdx index).length ≤ s
              then (st.messages.eraseIdx index).length - 1 else s)
      rw [if_pos hc.1]
  · rw [if_neg hc]
    by_cases hE : (st.messages.eraseIdx index).isEmpty
    · rw [if_pos hE]
      refine ⟨rfl, fun _ => ⟨rfl, rfl⟩, fun hNE => ?_⟩
      replace hNE : st.messages.eraseIdx index ≠ [] := hNE
      exact (hNE (List.isEmpty_iff.mp hE)).elim
    · rw [if_neg hE]
      refine ⟨rfl, fun hEq => ?_, fun _ => ?_⟩
      · replace hEq : st.messages.eraseIdx index = [] := hEq
        rw [hEq] at hE
        exact (hE rfl).elim
      · have hlt : ¬ (st.messages.eraseIdx index).length ≤ s := fun hle => hc ⟨hle, hE⟩
        refine ⟨?_, rfl⟩
        show some s =
          some (if (st.messages.eraseIdx index).length ≤ s
                then (st.messages.eraseIdx index).length - 1 else s)
        rw [if_neg hlt]

/-! ## Concrete fixtures for witnesses and counterexamples -/

/-- A concrete message summary (unread, unstarred, in mailbox 1). -/
def mkMsg (i : Nat) : MessageSummary :=
  { uid := i, subject := "subject " ++ toString i, «from» := "alice@example.com",
    date := "2024-01-01", is_read := false, is_starred := false,
    has_attachments := false, thread_id := none, envelope_hash := 1000 + i,
    timestamp := 0, mailbox_hash := 1, message_id := "mid-" ++ toString i,
    in_reply_to := none, reply_to := none, thread_depth := 0 }

/-- A concrete INBOX folder with mailbox hash 1. -/
def inboxFolder : Folder :=
  { name := "INBOX", path := "INBOX", unread_count := 0, total_count := 0,
    mailbox_hash := 1 }

/-- A concrete base application state: connected, cache present, INBOX selected. -/
def baseModel : AppModel :=
  { config := true, session := true, cache := true,
    folders := [inboxFolder], selected_folder := some 0,
    messages := [], selected_message := none, messages_offset := 0,
    has_more_messages := false, preview_body := "",
    folder_map := buildFolderMap [inboxFolder], is_syncing := false,
    status_message := "", show_setup_dialog := false,
    password_only_mode := false, setup_error := none }

/-- An empty cache. -/
def emptyCache : CacheState :=
  { messages := [], flag_rows := [], bodies := [] }

/-! ## Claim theorems -/

/-- C10: the standalone cache-store functions in src/core/store.rs persist
nothing: for every connection and arguments, `save_folders` and
`save_messages` return `Ok` without writing, `load_folders` and
`load_messages` always return the empty list, and `open_db` opens an
in-memory (non-persistent, empty) database. -/
theorem c10_store_persists_nothing (conn : store.Connection)
    (folders : List Folder) (msgs : List MessageSummary) (folder_path : String) :
    store.save_folders conn folders = (conn, Except.ok ()) ∧
    store.save_messages conn msgs = (conn, Except.ok ()) ∧
    store.load_folders conn = Except.ok [] ∧
    store.load_messages conn folder_path = Except.ok [] ∧
    store.open_db.location = store.DbLocation.memory ∧
    store.open_db.folders_table = [] ∧
    store.open_db.messages_table = [] :=
  ⟨rfl, rfl, rfl, rfl, rfl, rfl, rfl⟩

theorem autoSelectInbox_folder_map (st : AppModel) :
    st.autoSelectInbox.folder_map = st.folder_map := by
  unfold AppModel.autoSelectInbox
  split
  · split <;> rfl
  · rfl

theorem syncFoldersCompleteOk_folder_map (st : AppModel) (folders : List Folder) :
    ((st.syncFoldersCompleteOk folders).1).folder_map = buildFolderMap folders := by
  simp only [AppModel.syncFoldersCompleteOk, AppModel.rebuild_folder_map]
  split
  · split
    · split <;> rw [autoSelectInbox_folder_map]
    · rw [autoSelectInbox_folder_map]
  · rw [autoSelectInbox_folder_map]

/-- C5: after a successful folder sync (`SyncFoldersComplete(Ok(folders))`),
the folder-path→mailbox-hash map contains exactly one entry per folder path
present in that sync result (value taken from its last occurrence) and no
other entry, independently of the map's previous contents: it is rebuilt by
clear-then-repopulate (`rebuild_folder_map`), so no stale entries survive.
The same holds for the per-account `AccountState::rebuild_folder_map`. -/
theorem c5_folder_map_rebuilt_exactly (st : AppModel) (a : AccountState)
    (folders : List Folder) (p : String) :
    getAssoc ((st.syncFoldersCompleteOk folders).1).folder_map p =
      findLastPath folders p ∧
    ((getAssoc ((st.syncFoldersCompleteOk folders).1).folder_map p).isSome ↔
      p ∈ folders.map Folder.path) ∧
    ((((st.syncFoldersCompleteOk folders).1).folder_map.map Prod.fst).Nodup) ∧
    getAssoc (a.rebuild_folder_map).folder_map p = findLastPath a.folders p := by
  rw [syncFoldersCompleteOk_folder_map]
  refine ⟨getAssoc_buildFolderMap folders p, ?_,
    nodup_keys_buildFolderMap folders, getAssoc_buildFolderMap a.folders p⟩
  rw [getAssoc_buildFolderMap]
  exact findLastPath_isSome_iff folders p

/-- C6: a trash or archive request whose destination folder cannot be
resolved in the folder map aborts with only a user-visible status message:
the returned state differs from the input state in the status line alone
(messages, selection, folder map all unchanged) and no cache or session
effect is emitted. -/
theorem c6_unresolved_destination_no_mutation (st : AppModel) (i j : Nat) :
    (resolveTrash st.folder_map = none →
      st.trashMessage i =
        ({ st with status_message := "Trash folder not found" }, [])) ∧
    (resolveArchive st.folder_map = none →
      st.archiveMessage j =
        ({ st with status_message := "Archive folder not found" }, [])) := by
  constructor
  · intro h
    simp [AppModel.trashMessage, h]
  · intro h
    simp [AppModel.archiveMessage, h]

/-- C6 witness: a concrete state with an empty folder map. -/
theorem c6_witness :
    ({ baseModel with folder_map := [] } : AppModel).trashMessage 0 =
      ({ { baseModel with folder_map := ([] : List (String × Nat)) } with
          status_message := "Trash folder not found" }, []) ∧
    ({ baseModel with folder_map := [] } : AppModel).archiveMessage 0 =
      ({ { baseModel with folder_map := ([] : List (String × Nat)) } with
          status_message := "Archive folder not found" }, []) :=
  ⟨(c6_unresolved_destination_no_mutation { baseModel with folder_map := [] } 0 0).1 rfl,
   (c6_unresolved_destination_no_mutation { baseModel with folder_map := [] } 0 0).2 rfl⟩

/-- The selection invariant C9 asserts for the state `st1` after one
optimistic removal from state `st` whose selection was `some s`: the list
shrank by one; the selection is `none` (with the preview body cleared)
exactly when the list became empty; on a non-empty list the selection equals
exactly `some (length - 1)` — the last index — when it pointed past the end
and stays exactly `some s` otherwise, with the preview untouched; and any
remaining selection is in range. -/
def selectionClampedAfter (st1 st : AppModel) (s : Nat) : Prop :=
  st1.messages.length + 1 = st.messages.length ∧
  (st1.selected_message = none ↔ st1.messages = []) ∧
  (st1.messages = [] → st1.selected_message = none ∧ st1.preview_body = "") ∧
  (st1.messages ≠ [] →
    st1.selected_message =
      some (if st1.messages.length ≤ s then st1.messages.length - 1 else s) ∧
    st1.preview_body = st.preview_body) ∧
  (∀ s', st1.selected_message = some s' → s' < st1.messages.length)

/-- C9: after the optimistic removal performed by trash or archive, the
selected-message index stays valid for the shrunken list: when it would
point past the end it is clamped to exactly the last index of the non-empty
list, otherwise it is kept unchanged, and it becomes `none` (with the
preview body cleared) exactly when the list becomes empty. -/
theorem c9_selection_clamped_after_removal (st : AppModel) (index s th ah : Nat)
    (msg : MessageSummary)
    (hmsg : st.messages.get? index = some msg)
    (hsel : st.selected_message = some s)
    (hT : resolveTrash st.folder_map = some th)
    (hA : resolveArchive st.folder_map = some ah) :
    selectionClampedAfter (st.trashMessage index).1 st s ∧
    selectionClampedAfter (st.archiveMessage index).1 st s := by
  have hidx : index < st.messages.length := by
    rcases List.get?_eq_some.mp hmsg with ⟨h, _⟩
    exact h
  have hlen : (st.messages.eraseIdx index).length + 1 = st.messages.length :=
    List.length_eraseIdx_add_one hidx
  rw [List.get?_eq_getElem?] at hmsg
  have htr : (st.trashMessage index).1 = st.removeWithClamp index := by
    simp [AppModel.trashMessage, hT, hmsg]
  have har : (st.archiveMessage index).1 = st.removeWithClamp index := by
    simp [AppModel.archiveMessage, hA, hmsg]
  obtain ⟨hm, hemp, hne⟩ := removeWithClamp_spec st index s hsel
  have main : selectionClampedAfter (st.removeWithClamp index) st s := by
    refine ⟨by rw [hm]; exact hlen, ⟨?_, fun hE => (hemp hE).1⟩, hemp, ?_, ?_⟩
    · intro hnone
      by_contra hNE
      have h4 := (hne hNE).1
      rw [hnone] at h4
      exact Option.noConfusion h4
    · intro hNE
      rw [hm]
      rw [hm] at hNE
      exact hne (by rw [hm]; exact hNE)
    · intro s2 hs2
      by_cases hE : (st.removeWithClamp index).messages = []
      · rw [(hemp hE).1] at hs2
        exact Option.noConfusion hs2
      · have h4 := (hne hE).1
        rw [h4] at hs2
        have hX := Option.some.inj hs2
        have hnz : (st.messages.eraseIdx index).length ≠ 0 := by
          intro h0
          apply hE
          rw [hm]
          exact List.length_eq_zero.mp h0
        rw [hm]
        by_cases hcl : (st.messages.eraseIdx index).length ≤ s
        · rw [if_pos hcl] at hX
          omega
        · rw [if_neg hcl] at hX
          omega
  exact ⟨by rw [htr]; exact main, by rw [har]; exact main⟩

/-- Concrete two-message state with resolvable Trash and Archive folders;
the selection (index 1) points past the end of the shrunken list, so the
witness exercises the clamp-to-last-index branch. -/
def c9State : AppModel :=
  { baseModel with
    messages := [mkMsg 0, mkMsg 1], selected_message := some 1,
    folder_map := [("Trash", 7), ("Archive", 8)] }

/-- C9 witness: the theorem applied at a concrete two-message state. -/
theorem c9_witness :
    selectionClampedAfter (c9State.trashMessage 0).1 c9State 1 ∧
    selectionClampedAfter (c9State.archiveMessage 0).1 c9State 1 :=
  c9_selection_clamped_after_removal c9State 0 1 7 8 (mkMsg 0) rfl rfl rfl rfl

/-- The body-loading protocol property C7 asserts: cache hit renders from
cache without touching the session or the cache; cache miss with a live
session persists the fetched body before rendering and makes the next open
cache-only; no session defers with a bounded retry counter. -/
def bodyCacheFirstPost (c c2 : CacheState) (env : Nat) (body b : String)
    (sessionFetch : Option (Except String String)) (d : BodyDefer)
    (index : Nat) : Prop :=
  loadBodyTask c sessionFetch env = (Except.ok body, c) ∧
  loadBodyTask c2 (some (Except.ok b)) env = (Except.ok b, c2.saveBody env b) ∧
  getAssoc (c2.saveBody env b).bodies env = some b ∧
  (∀ s', loadBodyTask (c2.saveBody env b) s' env = (Except.ok b, c2.saveBody env b)) ∧
  d.deferBodyLoad index =
    ({ pending_body := some index,
       body_defer_retries := d.body_defer_retries + 1 }, true) ∧
  d.body_defer_retries + 1 ≤ MAX_BODY_DEFER_RETRIES

/-- C7: on message selection the body is read from cache first (a hit
consults no session and leaves the cache unchanged); only on a miss is it
fetched from the live session and persisted into the cache before being
reported, so the next open of the same message is served cache-only; and
with no session the load is deferred with a bounded retry count. -/
theorem c7_body_cache_first_and_deferral
    (c c2 : CacheState) (env : Nat) (body b : String)
    (sessionFetch : Option (Except String String)) (d : BodyDefer) (index : Nat)
    (hhit : getAssoc c.bodies env = some body)
    (hmiss : getAssoc c2.bodies env = none)
    (hretry : d.body_defer_retries < MAX_BODY_DEFER_RETRIES) :
    bodyCacheFirstPost c c2 env body b sessionFetch d index := by
  have hsave : getAssoc (c2.saveBody env b).bodies env = some b := by
    simp [CacheState.saveBody, getAssoc_setAssoc]
  refine ⟨?_, ?_, hsave, ?_, ?_, ?_⟩
  · simp [loadBodyTask, hhit]
  · simp [loadBodyTask, hmiss]
  · intro s'
    simp [loadBodyTask, hsave]
  · simp [BodyDefer.deferBodyLoad, hretry]
  · omega

/-- C7 witness: concrete cache with a cached body for envelope 5, an empty
cache for the miss case, and a fresh defer counter. -/
theorem c7_witness :
    bodyCacheFirstPost { emptyCache with bodies := [(5, "cached body")] }
      emptyCache 5 "cached body" "fetched body" none ⟨none, 0⟩ 3 :=
  c7_body_cache_first_and_deferral
    { emptyCache with bodies := [(5, "cached body")] } emptyCache 5
    "cached body" "fetched body" none ⟨none, 0⟩ 3 (by decide) rfl (by decide)

/-- The frame property C8 asserts for a failed connect on a state that holds
previously loaded cached data: everything except the syncing flag and the
status line is preserved, and the new-generation account transitions to the
Error connection state with its data intact. -/
def connectFailurePost (st : AppModel) (a : AccountState) (e : String) : Prop :=
  (st.connectedErr e).folders = st.folders ∧
  (st.connectedErr e).messages = st.messages ∧
  (st.connectedErr e).selected_folder = st.selected_folder ∧
  (st.connectedErr e).selected_message = st.selected_message ∧
  (st.connectedErr e).preview_body = st.preview_body ∧
  (st.connectedErr e).folder_map = st.folder_map ∧
  (st.connectedErr e).messages_offset = st.messages_offset ∧
  (st.connectedErr e).has_more_messages = st.has_more_messages ∧
  (st.connectedErr e).session = st.session ∧
  (st.connectedErr e).cache = st.cache ∧
  (st.connectedErr e).config = st.config ∧
  (st.connectedErr e).show_setup_dialog = st.show_setup_dialog ∧
  (st.connectedErr e).password_only_mode = st.password_only_mode ∧
  (st.connectedErr e).setup_error = st.setup_error ∧
  (st.connectedErr e).is_syncing = false ∧
  (st.connectedErr e).status_message =
    toString st.folders.length ++ " folders (offline — " ++ e ++ ")" ∧
  (a.accountConnectedErr e).conn_state = ConnectionState.Error e ∧
  (a.accountConnectedErr e).folders = a.folders ∧
  (a.accountConnectedErr e).folder_map = a.folder_map ∧
  (a.accountConnectedErr e).session = a.session ∧
  (a.accountConnectedErr e).collapsed = a.collapsed

/-- C8: a failed connect attempt is non-fatal: with previously loaded cached
folders in memory, the handler preserves the folders, messages and all other
view state, changing only the syncing flag and the status line, and the
per-account connection state transitions to `Error(reason)` with the
account's cached data intact. -/
theorem c8_connect_failure_preserves_state (st : AppModel) (a : AccountState)
    (e : String) (hfolders : st.folders ≠ []) :
    connectFailurePost st a e := by
  have hne : ¬ (st.folders.isEmpty : Prop) := by
    intro hh
    exact hfolders (List.isEmpty_iff.mp hh)
  have h1 : ¬ ((st.folders.isEmpty : Prop) ∧ st.show_setup_dialog = false) :=
    fun hh => hne hh.1
  unfold connectFailurePost AppModel.connectedErr
  rw [if_neg h1, if_neg hne]
  exact ⟨rfl, rfl, rfl, rfl, rfl, rfl, rfl, rfl, rfl, rfl, rfl, rfl, rfl, rfl,
    rfl, rfl, rfl, rfl, rfl, rfl, rfl⟩

/-- C8 witness: a concrete state with one cached folder and one cached
message, and a disconnected account with one folder. -/
theorem c8_witness :
    connectFailurePost { baseModel with messages := [mkMsg 0] }
      { session := false, conn_state := ConnectionState.Disconnected,
        folders := [inboxFolder], folder_map := buildFolderMap [inboxFolder],
        collapsed := false } "network unreachable" :=
  c8_connect_failure_preserves_state { baseModel with messages := [mkMsg 0] }
    { session := false, conn_state := ConnectionState.Disconnected,
      folders := [inboxFolder], folder_map := buildFolderMap [inboxFolder],
      collapsed := false } "network unreachable" (by decide)

/-- Concrete one-message state (unread, unstarred envelope 1000 in mailbox 1). -/
def c1State : AppModel := { baseModel with messages := [mkMsg 0] }

/-- C1 (failing run): toggling the star on an unread, unstarred message and
then reconciling a failed remote set-flags operation does NOT restore the
pre-toggle state: the `FlagOpComplete` error arm flips `is_read` regardless
of which flag was toggled, leaving `is_starred = true` (not rolled back) and
corrupting `is_read` to `true`; only the cache pending marker is reverted. -/
theorem c1_toggleStar_failure_not_rolled_back :
    (mkMsg 0).is_read = false ∧ (mkMsg 0).is_starred = false ∧
    ((c1State.toggleStar 0).1.messages = [{ mkMsg 0 with is_starred := true }]) ∧
    (((c1State.toggleStar 0).1.flagOpComplete 1000 (Except.error "network error")).1.messages =
      [{ mkMsg 0 with is_read := true, is_starred := true }]) ∧
    (((c1State.toggleStar 0).1.flagOpComplete 1000 (Except.error "network error")).2 =
      [Effect.cacheRevertPendingOp 1000]) := by
  refine ⟨rfl, rfl, ?_, ?_, ?_⟩ <;> decide

/-- Concrete one-message state with a resolvable Trash folder (hash 7). -/
def c2State : AppModel :=
  { baseModel with
    messages := [mkMsg 0], selected_message := some 0,
    preview_body := "old body", folder_map := [("Trash", 7)] }

/-- C2 (failing run): trashing the only message optimistically removes it and
writes a `move:` pending marker to the cache; when the remote move then
fails, the `MoveOpComplete` error arm only sets the status line — the
message is NOT re-inserted into the list and no cache-revert effect is
emitted, so the cache row keeps the pending move marker. -/
theorem c2_move_failure_not_reinserted :
    ((c2State.trashMessage 0).1.messages = []) ∧
    ((c2State.trashMessage 0).2 =
      [Effect.cacheUpdateFlags 1000 1 "move:7",
       Effect.sessionMoveMessages 1000 1 7]) ∧
    (((c2State.trashMessage 0).1.moveOpComplete 1000 (Except.error "imap error")).1.messages
      = []) ∧
    (((c2State.trashMessage 0).1.moveOpComplete 1000 (Except.error "imap error")).1.status_message
      = "Move failed: imap error") ∧
    (((c2State.trashMessage 0).1.moveOpComplete 1000 (Except.error "imap error")).2 = []) := by
  refine ⟨?_, ?_, ?_, ?_, ?_⟩ <;> decide

/-- The read-your-write property C3 asserts for a successful message sync,
amended for pagination: the sync task persists the fetch to the cache, a
second cache read at offset 0 fully replaces the displayed list with the
first page of exactly the persisted rows (all of them whenever they fit in
one page), so no stale row survives. -/
def syncReloadPost (page : Nat) (st : AppModel) (c : CacheState)
    (folder : Folder) (fetched : List MessageSummary) : Prop :=
  syncMessagesTask c st.cache folder.mailbox_hash (Except.ok fetched) =
    (c.saveMessages folder.mailbox_hash fetched, Except.ok ()) ∧
  (st.syncMessagesComplete page (Except.ok ())).2 =
    [Effect.cacheLoadMessages folder.mailbox_hash page 0] ∧
  (c.saveMessages folder.mailbox_hash fetched).loadMessages folder.mailbox_hash page 0 =
    fetched.take page ∧
  ((st.syncMessagesComplete page (Except.ok ())).1.cachedMessagesLoaded page
      ((c.saveMessages folder.mailbox_hash fetched).loadMessages
        folder.mailbox_hash page 0)).messages = fetched.take page ∧
  (fetched.length ≤ page →
    ((st.syncMessagesComplete page (Except.ok ())).1.cachedMessagesLoaded page
        ((c.saveMessages folder.mailbox_hash fetched).loadMessages
          folder.mailbox_hash page 0)).messages = fetched)

/-- C3 (amended): for every successful network message sync of the selected
folder, the final rendered list is obtained by a second cache read at
offset 0 that fully replaces the displayed list and equals exactly the first
page of the rows persisted by that fetch — the whole persisted set whenever
it fits within one page — never a mix of stale cache rows and fresh rows. -/
theorem c3_sync_reload_equals_persisted_page
    (page : Nat) (st : AppModel) (c : CacheState) (idx : Nat) (folder : Folder)
    (fetched : List MessageSummary)
    (hsel : st.selected_folder = some idx)
    (hfold : st.folders.get? idx = some folder)
    (hcache : st.cache = true) :
    syncReloadPost page st c folder fetched := by
  have htask : syncMessagesTask c st.cache folder.mailbox_hash (Except.ok fetched) =
      (c.saveMessages folder.mailbox_hash fetched, Except.ok ()) := by
    simp [syncMessagesTask, hcache]
  have hload : (c.saveMessages folder.mailbox_hash fetched).loadMessages
      folder.mailbox_hash page 0 = fetched.take page := by
    simp [CacheState.loadMessages, CacheState.saveMessages, getAssoc_setAssoc]
  have hsync := syncMessagesCompleteOk_eq page st idx folder hsel hfold hcache
  have hmsgs : ((st.syncMessagesComplete page (Except.ok ())).1.cachedMessagesLoaded page
      ((c.saveMessages folder.mailbox_hash fetched).loadMessages
        folder.mailbox_hash page 0)).messages = fetched.take page := by
    rw [hsync, hload, cachedMessagesLoaded_messages]
    rfl
  refine ⟨htask, by rw [hsync], hload, hmsgs, fun hle => ?_⟩
  rw [hmsgs]
  exact List.take_of_length_le hle

/-- C3 witness: one fetched message into an empty cache with INBOX selected. -/
theorem c3_witness :
    syncReloadPost DEFAULT_PAGE_SIZE baseModel emptyCache inboxFolder [mkMsg 0] :=
  c3_sync_reload_equals_persisted_page DEFAULT_PAGE_SIZE baseModel emptyCache 0
    inboxFolder [mkMsg 0] rfl rfl rfl

/-- A fetch result one row larger than the page size. -/
def c3Fetched : List MessageSummary := (List.range 51).map mkMsg

/-- C3 counterexample to the claim as stated: when the network fetch returns
51 rows and the page size is 50, the final rendered list is the 50-row first
page, which is NOT equal to the full set of rows persisted by the fetch. -/
theorem c3_counterexample_page_truncation :
    ((baseModel.syncMessagesComplete DEFAULT_PAGE_SIZE
        (syncMessagesTask emptyCache baseModel.cache inboxFolder.mailbox_hash
          (Except.ok c3Fetched)).2).1.cachedMessagesLoaded DEFAULT_PAGE_SIZE
      ((syncMessagesTask emptyCache baseModel.cache inboxFolder.mailbox_hash
          (Except.ok c3Fetched)).1.loadMessages
        inboxFolder.mailbox_hash DEFAULT_PAGE_SIZE 0)).messages ≠ c3Fetched := by
  intro hEq
  have htask : syncMessagesTask emptyCache baseModel.cache inboxFolder.mailbox_hash
      (Except.ok c3Fetched) =
      (emptyCache.saveMessages inboxFolder.mailbox_hash c3Fetched, Except.ok ()) := rfl
  have hload : (emptyCache.saveMessages inboxFolder.mailbox_hash c3Fetched).loadMessages
      inboxFolder.mailbox_hash DEFAULT_PAGE_SIZE 0 = c3Fetched.take DEFAULT_PAGE_SIZE := by
    simp [CacheState.loadMessages, CacheState.saveMessages, getAssoc_setAssoc]
  have hsync := syncMessagesCompleteOk_eq DEFAULT_PAGE_SIZE baseModel 0 inboxFolder
    rfl rfl rfl
  rw [htask, hsync, hload, cachedMessagesLoaded_messages] at hEq
  have hEq2 : c3Fetched.take DEFAULT_PAGE_SIZE = c3Fetched := hEq
  have hlen := congrArg List.length hEq2
  simp only [c3Fetched, DEFAULT_PAGE_SIZE, List.length_take, List.length_map,
    List.length_range] at hlen
  omega

theorem loadMoreMessages_fst (page : Nat) (st : AppModel) :
    (st.loadMoreMessages page).1 =
      { st with messages_offset := st.messages_offset + page } := by
  simp only [AppModel.loadMoreMessages]
  split
  · split
    · split <;> rfl
    · rfl
  · rfl

/-- The pagination property C4 asserts, amended for the exactly-one-page
case: `loadMore` advances the offset by exactly one page size and issues a
cache-only read; `hasMore` after the page load is true iff the page returned
exactly a full page; hence with at least one full page — in particular
exactly one full page — remaining past the new offset, `hasMore` is true
(it turns false only once a later page comes back short). -/
def loadMorePost (page : Nat) (st : AppModel) (c : CacheState)
    (folder : Folder) (L : List MessageSummary) : Prop :=
  (st.loadMoreMessages page).1.messages_offset = st.messages_offset + page ∧
  (st.loadMoreMessages page).2 =
    [Effect.cacheLoadMessages folder.mailbox_hash page (st.messages_offset + page)] ∧
  (∀ e ∈ (st.loadMoreMessages page).2, e.isSessionOp = false) ∧
  (((st.loadMoreMessages page).1.cachedMessagesLoaded page
      (c.loadMessages folder.mailbox_hash page
        (st.messages_offset + page))).has_more_messages = true ↔
    (c.loadMessages folder.mailbox_hash page (st.messages_offset + page)).length = page) ∧
  (st.messages_offset + page + page ≤ L.length →
    ((st.loadMoreMessages page).1.cachedMessagesLoaded page
        (c.loadMessages folder.mailbox_hash page
          (st.messages_offset + page))).has_more_messages = true)

/-- C4 (amended): loadMore advances the offset by exactly one page size and
issues a cache-only read; hasMore is true iff that page returned exactly a
full page — so with exactly P (or more than P) messages remaining past the
new offset, hasMore is true after that page, not false. -/
theorem c4_loadMore_pagination
    (page : Nat) (st : AppModel) (c : CacheState) (idx : Nat) (folder : Folder)
    (L : List MessageSummary)
    (hsel : st.selected_folder = some idx)
    (hfold : st.folders.get? idx = some folder)
    (hcache : st.cache = true)
    (hL : getAssoc c.messages folder.mailbox_hash = some L) :
    loadMorePost page st c folder L := by
  rw [List.get?_eq_getElem?] at hfold
  have heffs : (st.loadMoreMessages page).2 =
      [Effect.cacheLoadMessages folder.mailbox_hash page (st.messages_offset + page)] := by
    simp [AppModel.loadMoreMessages, hsel, hfold, hcache]
  have hrows : (c.loadMessages folder.mailbox_hash page (st.messages_offset + page)).length =
      min page (L.length - (st.messages_offset + page)) := by
    simp [CacheState.loadMessages, hL]
  refine ⟨by rw [loadMoreMessages_fst], heffs, ?_, ?_, ?_⟩
  · intro e he
    rw [heffs] at he
    simp only [List.mem_singleton] at he
    subst he
    rfl
  · rw [cachedMessagesLoaded_has_more]
    constructor
    · intro h
      exact beq_iff_eq.mp h
    · intro h
      rw [h]
      exact beq_iff_eq.mpr rfl
  · intro hrem
    rw [cachedMessagesLoaded_has_more]
    have : (c.loadMessages folder.mailbox_hash page (st.messages_offset + page)).length
        = page := by
      rw [hrows]
      omega
    rw [this]
    exact beq_iff_eq.mpr rfl

/-- Concrete state for the C4 witness: one page (size 1) already shown and
two rows in the cache, so exactly one full page remains past the new offset. -/
def c4State : AppModel := { baseModel with messages := [mkMsg 0] }

/-- Cache holding two rows for mailbox 1. -/
def c4Cache : CacheState :=
  { emptyCache with messages := [(1, [mkMsg 0, mkMsg 1])] }

/-- C4 witness: the amended pagination property at page size 1. -/
theorem c4_witness :
    loadMorePost 1 c4State c4Cache inboxFolder [mkMsg 0, mkMsg 1] :=
  c4_loadMore_pagination 1 c4State c4Cache 0 inboxFolder [mkMsg 0, mkMsg 1]
    rfl rfl rfl rfl

/-- Cache holding 100 rows for mailbox 1: after the first page of 50, a
loadMore finds exactly 50 = DEFAULT_PAGE_SIZE rows remaining. -/
def c4BigCache : CacheState :=
  { emptyCache with messages := [(1, (List.range 100).map mkMsg)] }

/-- C4 counterexample to the claim as stated: with exactly one full page
(50 = DEFAULT_PAGE_SIZE rows) remaining in the store past the new offset,
the page load sets `hasMore = true`, not `false` as the claim demands. -/
theorem c4_counterexample_exact_page_remaining :
    (((List.range 100).map mkMsg).length =
      baseModel.messages_offset + DEFAULT_PAGE_SIZE + DEFAULT_PAGE_SIZE) ∧
    ((baseModel.loadMoreMessages DEFAULT_PAGE_SIZE).1.cachedMessagesLoaded
        DEFAULT_PAGE_SIZE
        (c4BigCache.loadMessages inboxFolder.mailbox_hash DEFAULT_PAGE_SIZE
          (baseModel.loadMoreMessages DEFAULT_PAGE_SIZE).1.messages_offset)).has_more_messages
      = true := by
  constructor
  · simp [baseModel, DEFAULT_PAGE_SIZE]
  · rw [cachedMessagesLoaded_has_more]
    have hoff : (baseModel.loadMoreMessages DEFAULT_PAGE_SIZE).1.messages_offset = 50 := by
      rw [loadMoreMessages_fst]
      rfl
    rw [hoff]
    have hlen : (c4BigCache.loadMessages inboxFolder.mailbox_hash DEFAULT_PAGE_SIZE 50).length
        = 50 := by
      simp [c4BigCache, CacheState.loadMessages, getAssoc, inboxFolder, DEFAULT_PAGE_SIZE]
    rw [hlen]
    rfl

/-- A concrete disconnected account owning just the INBOX folder. -/
def plainAccount : AccountState :=
  { session := false, conn_state := ConnectionState.Disconnected,
    folders := [inboxFolder], folder_map := [], collapsed := false }

/-- C5 witness: the rebuilt-map property at a concrete one-folder sync. -/
theorem c5_witness :
    getAssoc ((baseModel.syncFoldersCompleteOk [inboxFolder]).1).folder_map "INBOX" =
      findLastPath [inboxFolder] "INBOX" ∧
    ((getAssoc ((baseModel.syncFoldersCompleteOk [inboxFolder]).1).folder_map "INBOX").isSome ↔
      "INBOX" ∈ [inboxFolder].map Folder.path) ∧
    ((((baseModel.syncFoldersCompleteOk [inboxFolder]).1).folder_map.map Prod.fst).Nodup) ∧
    getAssoc (plainAccount.rebuild_folder_map).folder_map "INBOX" =
      findLastPath plainAccount.folders "INBOX" :=
  c5_folder_map_rebuilt_exactly baseModel plainAccount [inboxFolder] "INBOX"

/-- C10 witness: the store stub evaluated at concrete arguments. -/
theorem c10_witness :
    store.save_folders store.open_db [inboxFolder] = (store.open_db, Except.ok ()) ∧
    store.save_messages store.open_db [mkMsg 0] = (store.open_db, Except.ok ()) ∧
    store.load_folders store.open_db = Except.ok [] ∧
    store.load_messages store.open_db "INBOX" = Except.ok [] ∧
    store.open_db.location = store.DbLocation.memory ∧
    store.open_db.folders_table = [] ∧
    store.open_db.messages_table = [] :=
  c10_store_persists_nothing store.open_db [inboxFolder] [mkMsg 0] "INBOX"
